import Mathlib

/-!
Shallow embedding of the core of `ansible-host-prep`: the phase
orchestration engine (package `phases`: context.go, errors.go, handler.go,
manager.go, phases.go) and the privilege-elevation resolver (package
`privilege`).  Go pointers that may be nil are modelled with `Option`,
Go errors with an explicit inductive, and the unbounded input-retry loop
of `executePhase` with an explicit fuel parameter (`none` = the loop did
not finish within the given fuel).  The Manager's observer notifications
and the invocations of phase run operations and of the input handler are
recorded in an event trace; every registered observer receives exactly the
`phaseStarted`/`phaseCompleted` subsequence of that trace, in order.
-/

namespace HostPrep

/-- Values stored in the shared `Context` (Go `any`). -/
inductive GoValue
  | vstr (s : String)
  | vnat (n : Nat)
  | vbool (b : Bool)
  deriving DecidableEq

/-- Go `phases.InputOption`. -/
structure InputOption where
  Value : String := ""
  Label : String := ""
  Description : String := ""
  deriving DecidableEq

/-- Go `phases.InputDefinition`.  `Kind` is a string type in the source
(`type InputKind string`, constants "text", "secret", "select"). -/
structure InputDefinition where
  ID : String := ""
  Label : String := ""
  Description : String := ""
  Kind : String := "text"
  Required : Bool := false
  Secret : Bool := false
  Options : List InputOption := []
  Default : Option GoValue := none
  deriving DecidableEq

/-- Go `phases.PhaseMetadata`. -/
structure PhaseMetadata where
  ID : String := ""
  Title : String := ""
  Description : String := ""
  Inputs : List InputDefinition := []
  Tags : List String := []
  deriving DecidableEq

/-- The error values of package `phases` (errors.go): `ValidationError`,
`DuplicatePhaseError`, `InputRequestError`, `PhaseExecutionError`.
`other` stands for any foreign error value a phase or a handler may
return (opaque to the engine). -/
inductive GoError
  | validation (reason : String)
  | duplicatePhase (id : String)
  | inputRequest (phaseID : String) (input : InputDefinition) (reason : String)
  | phaseExecution (phase : PhaseMetadata) (err : GoError)
  | other (msg : String)
  deriving DecidableEq

/-- Go `errors.As(err, &InputRequestError{})`: matches an
`InputRequestError` directly or through `Unwrap` chains; in this package
only `PhaseExecutionError` has an `Unwrap` method. -/
def asInputRequest : GoError → Option (String × InputDefinition × String)
  | .inputRequest pid input reason => some (pid, input, reason)
  | .phaseExecution _ e => asInputRequest e
  | _ => none

/-- The map inside a `phases.Context`.  The Go map's overwrite-on-Set is
modelled by prepending; `Get` returns the most recent binding. -/
abbrev Store := List (String × GoValue)

/-- A possibly-nil `*phases.Context`; `none` models a nil pointer. -/
abbrev Ctx := Option Store

/-- Go `phases.NewContext()`. -/
def NewContext : Ctx := some []

/-- Go `(*Context).Set`: a no-op on a nil receiver. -/
def Ctx.Set : Ctx → String → GoValue → Ctx
  | none, _, _ => none
  | some s, k, v => some ((k, v) :: s)

/-- Go `(*Context).Get`: `(nil, false)` on a nil receiver; `none` models
the `found = false` return. -/
def Ctx.Get : Ctx → String → Option GoValue
  | none, _ => none
  | some s, k => s.lookup k

/-- Go `inputKey` (context.go): `fmt.Sprintf("phase:%s:input:%s", phaseID, inputID)`. -/
def inputKey (phaseID inputID : String) : String :=
  "phase:" ++ phaseID ++ ":input:" ++ inputID

/-- Go `phases.SetInput`. -/
def SetInput (ctx : Ctx) (phaseID inputID : String) (value : GoValue) : Ctx :=
  match ctx with
  | none => none
  | some _ => Ctx.Set ctx (inputKey phaseID inputID) value

/-- Go `phases.GetInput`. -/
def GetInput (ctx : Ctx) (phaseID inputID : String) : Option GoValue :=
  match ctx with
  | none => none
  | some _ => Ctx.Get ctx (inputKey phaseID inputID)

/-- Go `phases.Phase`: `Metadata()` plus `Run(ctx, phaseCtx)`, which may
mutate the shared context and returns an optional error. -/
structure Phase where
  metadata : PhaseMetadata
  run : Ctx → Ctx × Option GoError

/-- Go `phases.InputHandler.RequestInput(meta, input, reason) (any, error)`. -/
abbrev InputHandler := PhaseMetadata → InputDefinition → String → Except GoError GoValue

/-- Go `phases.Manager`.  The observer list is not part of the state
here: notifications are recorded in the event trace instead, and every
observer receives that same sequence. -/
structure Manager where
  phases : List Phase
  inputHandler : Option InputHandler

/-- The observable events of one engine run: observer notifications
(`phaseStarted` / `phaseCompleted`, from `notifyStart` / `notifyComplete`)
plus instrumentation for each `phase.Run` invocation and each
`InputHandler.RequestInput` call. -/
inductive Event
  | phaseStarted (meta : PhaseMetadata)
  | phaseCompleted (meta : PhaseMetadata) (err : Option GoError)
  | runInvoked (phaseID : String)
  | handlerCalled (phaseID : String) (inputID : String)
  deriving DecidableEq

/-- Events delivered to observers. -/
def isObserverEvent : Event → Bool
  | .phaseStarted _ => true
  | .phaseCompleted _ _ => true
  | _ => false

/-- The sequence of notifications each registered observer receives. -/
def observerEvents (t : List Event) : List Event :=
  t.filter isObserverEvent

/-- How many times the run operation of the phase with the given ID was invoked. -/
def countRunInvoked (id : String) (t : List Event) : Nat :=
  (t.filter fun e => match e with | .runInvoked j => j == id | _ => false).length

/-- How many times the input handler was called on behalf of the given phase. -/
def countHandlerCalled (id : String) (t : List Event) : Nat :=
  (t.filter fun e => match e with | .handlerCalled j _ => j == id | _ => false).length

/-- Go `(*Manager).hasPhase`. -/
def hasPhase (ps : List Phase) (id : String) : Bool :=
  ps.any fun p => p.metadata.ID == id

/-- Go `(*Manager).Register` (manager.go:51-66): walks the variadic
argument list, skipping nil entries, appending each phase after
validating it; returns early on the first empty or duplicate ID,
keeping the phases already appended.  Returns the resulting phase list
together with the returned error. -/
def registerLoop : List Phase → List (Option Phase) → List Phase × Option GoError
  | ps, [] => (ps, none)
  | ps, none :: rest => registerLoop ps rest
  | ps, some p :: rest =>
    if p.metadata.ID = "" then (ps, some (.validation "phase id must not be empty"))
    else if hasPhase ps p.metadata.ID then (ps, some (.duplicatePhase p.metadata.ID))
    else registerLoop (ps ++ [p]) rest

/-- Go `(*Manager).Register`, at the `Manager` level: the manager after
the call, and the returned error. -/
def Manager.Register (m : Manager) (toAdd : List (Option Phase)) : Manager × Option GoError :=
  let r := registerLoop m.phases toAdd
  ({ m with phases := r.1 }, r.2)

/-- Go `(*Manager).executePhase` (manager.go:85-105): the input-retry
loop.  The fuel bounds the number of `phase.Run` invocations; `none`
means the loop did not finish within the fuel (the Go loop is unbounded
by design).  Returns the final context, the error `executePhase`
returns (none on success), and the trace of run/handler events. -/
def executePhase (handler : Option InputHandler) (p : Phase) (meta : PhaseMetadata) :
    Nat → Ctx → Option (Ctx × Option GoError × List Event)
  | 0, _ => none
  | Nat.succ fuel, ctx =>
    match p.run ctx with
    | (ctx1, none) => some (ctx1, none, [.runInvoked meta.ID])
    | (ctx1, some err) =>
      match asInputRequest err with
      | none => some (ctx1, some err, [.runInvoked meta.ID])
      | some (pid, input, reason) =>
        match handler with
        | none => some (ctx1, some err, [.runInvoked meta.ID])
        | some h =>
          match h meta input reason with
          | .error hErr => some (ctx1, some hErr, [.runInvoked meta.ID, .handlerCalled meta.ID input.ID])
          | .ok value =>
            match executePhase handler p meta fuel (SetInput ctx1 pid input.ID value) with
            | none => none
            | some (ctx2, res, t) =>
              some (ctx2, res, .runInvoked meta.ID :: .handlerCalled meta.ID input.ID :: t)

/-- The loop body of Go `(*Manager).Run` (manager.go:73-81): for each
phase notify start, execute, notify completion; on error stop, wrapping
the error in a `PhaseExecutionError`. -/
def runPhases (handler : Option InputHandler) (fuel : Nat) :
    List Phase → Ctx → Option (Ctx × Option GoError × List Event)
  | [], ctx => some (ctx, none, [])
  | p :: rest, ctx =>
    match executePhase handler p p.metadata fuel ctx with
    | none => none
    | some (ctx1, some err, t) =>
      some (ctx1, some (.phaseExecution p.metadata err),
        .phaseStarted p.metadata :: t ++ [.phaseCompleted p.metadata (some err)])
    | some (ctx1, none, t) =>
      match runPhases handler fuel rest ctx1 with
      | none => none
      | some (ctx2, res2, t2) =>
        some (ctx2, res2, (.phaseStarted p.metadata :: t ++ [.phaseCompleted p.metadata none]) ++ t2)

/-- Go `(*Manager).Run` (manager.go:69-83): replaces a nil context with a
fresh one, then executes all registered phases in order. -/
def Manager.Run (m : Manager) (fuel : Nat) (phaseCtx : Ctx) :
    Option (Ctx × Option GoError × List Event) :=
  let ctx := match phaseCtx with
    | none => NewContext
    | some s => some s
  runPhases m.inputHandler fuel m.phases ctx

/-- Go `(*model).clampStartIndex` (TUI source): clamp a start index to
the valid range of a list of the given length. -/
def clampStartIndex (len : Nat) (idx : Int) : Nat :=
  if len = 0 then 0
  else if idx < 0 then 0
  else if (len : Int) ≤ idx then len - 1
  else idx.toNat

/-- Modelled from the spec: `(*Manager).RunFrom` is invoked by the TUI
(`runManagerCmd` calls `manager.RunFrom(runCtx, ctx, start)`) but its
definition is not among the provided sources.  Per the spec it "executes
steps from a given index (clamped to valid range)"; the clamp mirrors
`clampStartIndex` from the TUI source, and execution from an index is
`runPhases` over the remaining suffix of the registered phases. -/
def Manager.RunFrom (m : Manager) (fuel : Nat) (phaseCtx : Ctx) (start : Int) :
    Option (Ctx × Option GoError × List Event) :=
  let ctx := match phaseCtx with
    | none => NewContext
    | some s => some s
  runPhases m.inputHandler fuel (m.phases.drop (clampStartIndex m.phases.length start)) ctx

/-! ## Privilege-elevation resolver (package `privilege`) -/

/-- The two elevation mechanisms (`methodSudo`, `methodSu`). -/
inductive ElevationMethod
  | sudo
  | su
  deriving DecidableEq

/-- The error values of package `privilege`, by constructor; the wrapped
Go `error` values are opaque and carried stderr text is kept. -/
inductive ElevErr
  | sudoNotInstalled (stderr : String)
  | sudoPermission (stderr : String)
  | sudoAuthentication
  | sudoUnknown (stderr : String)
  | suAuthentication
  | suUnavailable (stderr : String)
  | ensureSudo (stderr : String)
  deriving DecidableEq

/-- The outcome of one remote command: captured stdout and stderr, and
whether the command returned without error (`ok` models `err == nil`). -/
structure RunResult where
  stdout : String
  stderr : String
  ok : Bool
  deriving DecidableEq

/-- The behaviour of the remote host as seen through the SSH runner: the
result of the k-th command issued on this connection, as a function of
the call index, the command text and the stdin text.  Indexing by call
count lets a host's answers change after earlier commands (e.g. after an
install) while keeping the model deterministic. -/
abbrev Behav := Nat → String → String → RunResult

/-- The log of commands issued so far: (command text, stdin text) pairs. -/
abbrev CallLog := List (String × String)

/-- One `runner.Run(cmd, stdin)` call: consult the behaviour at the
current call index and append the call to the log. -/
def runCall (b : Behav) (st : CallLog) (cmd stdin : String) : RunResult × CallLog :=
  (b st.length cmd stdin, st ++ [(cmd, stdin)])

/-- Go `strings.ReplaceAll(value, "'", "'\"'\"'")`: the pattern is the
single character `'`, so the replacement acts independently on each
character. -/
def escSingleQuotes : List Char → List Char
  | [] => []
  | c :: rest =>
    (if c = '\'' then ['\'', '"', '\'', '"', '\''] else [c]) ++ escSingleQuotes rest

/-- Go `shellQuote` (privilege source): wrap in single quotes, escaping
embedded single quotes with the `'"'"'` idiom; the empty string becomes `''`. -/
def shellQuote (value : String) : String :=
  if value = "" then "''"
  else "'" ++ String.mk (escSingleQuotes value.toList) ++ "'"

/-- Go `runPrivileged` (privilege source): builds the command text from
the method and the shell-quoted user command, and delivers the password
followed by a newline on stdin. -/
def runPrivileged (b : Behav) (st : CallLog) (method : ElevationMethod)
    (password cmd : String) : RunResult × CallLog :=
  let quotedCmd := shellQuote cmd
  match method with
  | .sudo => runCall b st ("sudo -S -p '' -k bash -c " ++ quotedCmd) (password ++ "\n")
  | .su => runCall b st ("su - root -c " ++ quotedCmd) (password ++ "\n")

/-- Does `pat` occur at the head of `s`? -/
def leadsWith : List Char → List Char → Bool
  | [], _ => true
  | _ :: _, [] => false
  | p :: ps, c :: cs => p == c && leadsWith ps cs

/-- Does `pat` occur anywhere in `s`? -/
def hasSubstring : List Char → List Char → Bool
  | [], pat => leadsWith pat []
  | c :: cs, pat => leadsWith pat (c :: cs) || hasSubstring cs pat

/-- Go `strings.Contains(s, pat)`. -/
def containsSubstr (s pat : String) : Bool :=
  hasSubstring s.toList pat.toList

def isAuthenticationFailure (stderr : String) : Bool :=
  containsSubstr stderr "Authentication failure" ||
  containsSubstr stderr "authentication failure" ||
  containsSubstr stderr "incorrect password"

/-- Go `validateSudo`: probe `sudo` with the no-op command `true` and
classify a failure by its stderr signature, in source order
(not-installed, then permission, then authentication, else unknown). -/
def validateSudo (b : Behav) (st : CallLog) (password : String) :
    Option ElevErr × CallLog :=
  let r := runPrivileged b st .sudo password "true"
  if r.1.ok then (none, r.2)
  else if containsSubstr r.1.stderr "sudo: command not found" then
    (some (.sudoNotInstalled r.1.stderr), r.2)
  else if containsSubstr r.1.stderr "is not in the sudoers file" ||
          containsSubstr r.1.stderr "may not run sudo" then
    (some (.sudoPermission r.1.stderr), r.2)
  else if isAuthenticationFailure r.1.stderr ||
          containsSubstr r.1.stderr "Sorry, try again." then
    (some .sudoAuthentication, r.2)
  else (some (.sudoUnknown r.1.stderr), r.2)

/-- Go `ensureRootViaSu`: probe `su` with the no-op command `true`. -/
def ensureRootViaSu (b : Behav) (st : CallLog) (password : String) :
    Option ElevErr × CallLog :=
  let r := runPrivileged b st .su password "true"
  if r.1.ok then (none, r.2)
  else if isAuthenticationFailure r.1.stderr then (some .suAuthentication, r.2)
  else (some (.suUnavailable r.1.stderr), r.2)

/-- The embedded install script (`ensureSudoScript` in the source). -/
def ensureSudoScript : String :=
  "\nset -euo pipefail\nif command -v sudo >/dev/null 2>&1; then\n\texit 0\nfi\nif command -v apt-get >/dev/null 2>&1; then\n\tapt-get update -y >/dev/null 2>&1 && apt-get install -y sudo >/dev/null 2>&1\nelif command -v yum >/dev/null 2>&1; then\n\tyum install -y sudo >/dev/null 2>&1\nelif command -v dnf >/dev/null 2>&1; then\n\tdnf install -y sudo >/dev/null 2>&1\nelif command -v zypper >/dev/null 2>&1; then\n\tzypper --non-interactive install -y sudo >/dev/null 2>&1\nelse\n\techo \"unable to install sudo: no supported package manager found\" >&2\n\texit 1\nfi\n"

def base64Alphabet : List Char :=
  "ABCDEFGHIJKLMNOPQRSTUVWXYZabcdefghijklmnopqrstuvwxyz0123456789+/".toList

def base64Char (n : Nat) : Char := base64Alphabet.getD n 'A'

/-- Standard base64 with padding, over a byte list. -/
def base64Chunks : List Nat → List Char
  | b0 :: b1 :: b2 :: rest =>
    base64Char (b0 / 4) :: base64Char (b0 % 4 * 16 + b1 / 16) ::
    base64Char (b1 % 16 * 4 + b2 / 64) :: base64Char (b2 % 64) :: base64Chunks rest
  | [b0, b1] => [base64Char (b0 / 4), base64Char (b0 % 4 * 16 + b1 / 16), base64Char (b1 % 16 * 4), '=']
  | [b0] => [base64Char (b0 / 4), base64Char (b0 % 4 * 16), '=', '=']
  | [] => []

/-- Go `base64.StdEncoding.EncodeToString([]byte(s))`; the script being
ASCII, its bytes are its code points. -/
def base64Encode (s : String) : String :=
  String.mk (base64Chunks (s.toList.map Char.toNat))

/-- Go `ensureSudoInstalled`: pipe the base64-encoded install script
through `base64 -d | bash` under the given elevation method. -/
def ensureSudoInstalled (b : Behav) (st : CallLog) (method : ElevationMethod)
    (password : String) : Option ElevErr × CallLog :=
  let encoded := base64Encode ensureSudoScript
  let command := "printf %s " ++ shellQuote encoded ++ " | base64 -d | bash"
  let r := runPrivileged b st method password command
  if r.1.ok then (none, r.2)
  else (some (.ensureSudo r.1.stderr), r.2)

/-- Go `ensureElevation` (privilege source, lines 91-130): the decision
procedure of the elevation resolver.  Mirrors the source switch on the
classified probe error: authentication returns immediately; permission
denied falls back to `su` and returns `methodSu`; sudo-not-installed
falls back to `su`, installs sudo, re-probes sudo once and upgrades to
`methodSudo` if the re-probe succeeds; any other error returns as is. -/
def ensureElevation (b : Behav) (st : CallLog) (password : String) :
    Except ElevErr ElevationMethod × CallLog :=
  match validateSudo b st password with
  | (none, st1) =>
    match ensureSudoInstalled b st1 .sudo password with
    | (some e, st2) => (.error e, st2)
    | (none, st2) => (.ok .sudo, st2)
  | (some (.sudoAuthentication), st1) => (.error .sudoAuthentication, st1)
  | (some (.sudoPermission _), st1) =>
    match ensureRootViaSu b st1 password with
    | (some e, st2) => (.error e, st2)
    | (none, st2) =>
      match ensureSudoInstalled b st2 .su password with
      | (some e, st3) => (.error e, st3)
      | (none, st3) => (.ok .su, st3)
  | (some (.sudoNotInstalled _), st1) =>
    match ensureRootViaSu b st1 password with
    | (some e, st2) => (.error e, st2)
    | (none, st2) =>
      match ensureSudoInstalled b st2 .su password with
      | (some e, st3) => (.error e, st3)
      | (none, st3) =>
        match validateSudo b st3 password with
        | (none, st4) =>
          match ensureSudoInstalled b st4 .sudo password with
          | (some e, st5) => (.error e, st5)
          | (none, st5) => (.ok .sudo, st5)
        | (some _, st4) => (.ok .su, st4)
  | (some e, st1) => (.error e, st1)

/-- The exact command text `validateSudo` issues to probe sudo. -/
def sudoProbeCommand : String := "sudo -S -p '' -k bash -c " ++ shellQuote "true"

/-- The exact command text `ensureRootViaSu` issues to probe su. -/
def suProbeCommand : String := "su - root -c " ++ shellQuote "true"

/-- Is this command text a `su` invocation?  (Checks the first three
characters, lazily, so long quoted payloads need not be normalised.) -/
def isSuCmd (c : String) : Bool :=
  c.toList.take 3 = "su ".toList

/-- Is this command text a `sudo` invocation? -/
def isSudoCmd (c : String) : Bool :=
  c.toList.take 5 = "sudo ".toList

/-! ## Concrete scenario instances -/

/-- The "token" input of the end-to-end scenario's phase B. -/
def tokenDef : InputDefinition := { ID := "token", Label := "Token" }

def metaA : PhaseMetadata := { ID := "A", Title := "Phase A" }

def metaB : PhaseMetadata := { ID := "B", Title := "Phase B" }

def metaC : PhaseMetadata := { ID := "C", Title := "Phase C" }

/-- The store key the engine uses for phase B's "token" input. -/
def keyBtoken : String := "phase:B:input:token"

/-- Scenario phase A: no input, writes an artifact. -/
def phaseA : Phase :=
  { metadata := metaA
    run := fun ctx => (Ctx.Set ctx "artifact:a" (.vstr "alpha"), none) }

/-- The `InputRequestError` phase B raises while its token is absent. -/
def errB : GoError := .inputRequest "B" tokenDef "token required"

/-- Scenario phase B: fails with an `InputRequestError` until its
"token" input is present in the store, then writes an artifact. -/
def phaseB : Phase :=
  { metadata := metaB
    run := fun ctx =>
      match GetInput ctx "B" "token" with
      | some _ => (Ctx.Set ctx "artifact:b" (.vstr "beta"), none)
      | none => (ctx, some errB) }

/-- Scenario phase C: succeeds iff both prior artifacts are present. -/
def phaseC : Phase :=
  { metadata := metaC
    run := fun ctx =>
      match Ctx.Get ctx "artifact:a", Ctx.Get ctx "artifact:b" with
      | some _, some _ => (ctx, none)
      | _, _ => (ctx, some (.other "missing artifacts")) }

/-- A handler that answers every request with the string "abc123". -/
def handlerAbc : InputHandler := fun _ _ _ => .ok (.vstr "abc123")

/-- A run operation that fails with an `InputRequestError` exactly until
its input key is populated and does nothing else. -/
def c1run : Ctx → Ctx × Option GoError := fun ctx =>
  match Ctx.Get ctx keyBtoken with
  | some _ => (ctx, none)
  | none => (ctx, some (.inputRequest "B" tokenDef "token required"))

def mgr3 : Manager := { phases := [phaseA, phaseB, phaseC], inputHandler := some handlerAbc }

def mgr1 : Manager := { phases := [phaseB], inputHandler := some handlerAbc }

def mgrNoHandler : Manager := { phases := [phaseB], inputHandler := none }

/-- A phase that records nothing and always succeeds. -/
def mkSimplePhase (id : String) : Phase :=
  { metadata := { ID := id, Title := id }, run := fun ctx => (ctx, none) }

def mgr4 : Manager :=
  { phases := [mkSimplePhase "P0", mkSimplePhase "P1", mkSimplePhase "P2", mkSimplePhase "P3"]
    inputHandler := none }

/-- A host whose first command (the sudo probe) fails with the
permission-denied signature and where every later command succeeds —
in particular a sudo re-probe, were one issued, would succeed. -/
def permThenOk : Behav := fun k _ _ =>
  if k = 0 then
    { stdout := ""
      stderr := "user is not in the sudoers file.  This incident will be reported."
      ok := false }
  else { stdout := "", stderr := "", ok := true }

/-- A host on which every sudo attempt fails with the authentication
signature. -/
def authFailBehav : Behav := fun _ _ _ =>
  { stdout := "", stderr := "sudo: 1 incorrect password attempt", ok := false }

/-! ## A tiny POSIX shell-word reader, used to state that `shellQuote`
produces one fully quoted token whose literal value is the original
command.  `parseW q l` reads `l` with `q` the currently open quote
(`none` = outside quotes); only quoted characters are accepted, a
double-quoted segment may not contain the shell-active characters
`$`, backslash or backquote, and the result is the word's literal value. -/

def parseW : Option Char → List Char → Option (List Char)
  | none, [] => some []
  | some _, [] => none
  | none, c :: rest =>
    if c = '\'' then parseW (some '\'') rest
    else if c = '"' then parseW (some '"') rest
    else none
  | some q, c :: rest =>
    if c = q then parseW none rest
    else if q = '"' && (c = '$' || c = '\\' || c = Char.ofNat 96) then none
    else (parseW (some q) rest).map (fun t => c :: t)

/-- A whole shell word consisting solely of quoted segments. -/
def parseQuotedWord (l : List Char) : Option (List Char) :=
  parseW none l

/-- The command text `runPrivileged` sends for a given method and user
command — a function of those two alone. -/
def privCommandText (method : ElevationMethod) (cmd : String) : String :=
  match method with
  | .sudo => "sudo -S -p '' -k bash -c " ++ shellQuote cmd
  | .su => "su - root -c " ++ shellQuote cmd

/-! ## Theorems -/

/-- Reading the escaped body of a single-quoted segment recovers the
original characters: with a single quote open, `escSingleQuotes l`
followed by a closing quote and any continuation parses to `l` in front
of whatever the continuation parses to. -/
theorem parseW_esc (l : List Char) :
    ∀ k, parseW (some '\'') (escSingleQuotes l ++ '\'' :: k) =
      (parseW none k).map (fun t => l ++ t) := by
  induction l with
  | nil =>
    intro k
    cases h : parseW none k <;> simp [escSingleQuotes, parseW, h]
  | cons c rest ih =>
    intro k
    by_cases hc : c = '\''
    · subst hc
      cases h : parseW none k <;>
        simp [escSingleQuotes, parseW, ih, h, Option.map_map, Function.comp]
    · cases h : parseW none k <;>
        simp [escSingleQuotes, parseW, hc, ih, h, Option.map_map, Function.comp]

/-- `shellQuote` always yields a single, fully quoted shell word whose
literal value is exactly the original command string. -/
theorem shellQuote_parses (s : String) :
    parseQuotedWord (shellQuote s).toList = some s.toList := by
  by_cases hs : s = ""
  · subst hs; rfl
  · have hdata : (shellQuote s).toList =
        '\'' :: (escSingleQuotes s.toList ++ '\'' :: []) := by
      simp [shellQuote, hs, String.toList]
    rw [hdata]
    show parseW none ('\'' :: (escSingleQuotes s.toList ++ '\'' :: [])) = some s.toList
    rw [show parseW none ('\'' :: (escSingleQuotes s.toList ++ '\'' :: [])) =
        parseW (some '\'') (escSingleQuotes s.toList ++ '\'' :: []) from by
      simp [parseW]]
    rw [parseW_esc s.toList []]
    simp [parseW]

/-- C9: for every command string and credential, the privileged command
text sent over the runner is `privCommandText method cmd`, a function of
the user command and the resolved method alone, so the credential cannot
occur in it except by occurring in the command itself; the credential is
delivered solely as the stdin text `password ++ "\n"`; and the user
command is embedded as one fully quoted shell token whose literal value
is exactly the command (embedded single quotes escaped). -/
theorem c9_privileged_credential_isolation :
    ∀ (b : Behav) (st : CallLog) (m : ElevationMethod) (p c : String),
      (runPrivileged b st m p c).2 = st ++ [(privCommandText m c, p ++ "\n")] ∧
      (runPrivileged b st m p c).1 = b st.length (privCommandText m c) (p ++ "\n") ∧
      (∀ s : String, parseQuotedWord (shellQuote s).toList = some s.toList) := by
  intro b st m p c
  refine ⟨?_, ?_, fun s => shellQuote_parses s⟩ <;> cases m <;> rfl

/-- C1: for a step that fails with an `InputRequestError` exactly until
its input key is populated, paired with a handler that returns a value,
`Run` succeeds, the value is stored under the step-scoped input key,
the handler is called exactly once, and the step's run operation is
invoked exactly twice (the retry restarts the same step from its
beginning). -/
theorem c1_input_retry_protocol (run : Ctx → Ctx × Option GoError) (v : GoValue)
    (r : String) (fuel : Nat)
    (hfuel : 2 ≤ fuel)
    (hmiss : ∀ ctx, Ctx.Get ctx keyBtoken = none →
      run ctx = (ctx, some (.inputRequest "B" tokenDef r)))
    (hhit : ∀ ctx w, Ctx.Get ctx keyBtoken = some w → run ctx = (ctx, none)) :
    Manager.Run
        { phases := [{ metadata := metaB, run := run }]
          inputHandler := some (fun _ _ _ => .ok v) } fuel (some []) =
      some (some [(keyBtoken, v)], none,
        [.phaseStarted metaB, .runInvoked "B", .handlerCalled "B" "token",
         .runInvoked "B", .phaseCompleted metaB none]) ∧
    countRunInvoked "B"
      [.phaseStarted metaB, .runInvoked "B", .handlerCalled "B" "token",
       .runInvoked "B", .phaseCompleted metaB none] = 2 ∧
    countHandlerCalled "B"
      [.phaseStarted metaB, .runInvoked "B", .handlerCalled "B" "token",
       .runInvoked "B", .phaseCompleted metaB none] = 1 := by
  obtain ⟨n, rfl⟩ : ∃ n, fuel = Nat.succ (Nat.succ n) := ⟨fuel - 2, by omega⟩
  have hk : inputKey "B" "token" = keyBtoken := rfl
  have h1 : run (some []) = (some [], some (.inputRequest "B" tokenDef r)) :=
    hmiss _ rfl
  have h2 : run (some [(keyBtoken, v)]) = (some [(keyBtoken, v)], none) :=
    hhit _ v (by simp [Ctx.Get, List.lookup])
  refine ⟨?_, rfl, rfl⟩
  simp [Manager.Run, runPhases, executePhase, h1, h2, asInputRequest, SetInput,
    Ctx.Set, hk, metaB, tokenDef]

/-- C1 witness: the protocol at the concrete scenario (value "abc123",
fuel 2). -/
theorem c1_input_retry_protocol_witness :
    Manager.Run
        { phases := [{ metadata := metaB, run := c1run }]
          inputHandler := some (fun _ _ _ => .ok (.vstr "abc123")) } 2 (some []) =
      some (some [(keyBtoken, .vstr "abc123")], none,
        [.phaseStarted metaB, .runInvoked "B", .handlerCalled "B" "token",
         .runInvoked "B", .phaseCompleted metaB none]) ∧
    countRunInvoked "B"
      [.phaseStarted metaB, .runInvoked "B", .handlerCalled "B" "token",
       .runInvoked "B", .phaseCompleted metaB none] = 2 ∧
    countHandlerCalled "B"
      [.phaseStarted metaB, .runInvoked "B", .handlerCalled "B" "token",
       .runInvoked "B", .phaseCompleted metaB none] = 1 :=
  c1_input_retry_protocol c1run (.vstr "abc123") "token required" 2 (by decide)
    (fun ctx h => by simp [c1run, h])
    (fun ctx w h => by simp [c1run, h])

/-- C3 counterexample: in the end-to-end scenario the engine notifies
observers of six events — one start and one completion per phase, with
B's completion carrying no error — not the eight-event sequence with an
extra failed start/completion pair for B: the retry loop runs inside
`executePhase`, before the single completion notification. -/
theorem c3_observer_sequence_counterexample :
    Manager.Run mgr3 4 (some []) =
      some (some [("artifact:b", .vstr "beta"), ("phase:B:input:token", .vstr "abc123"),
          ("artifact:a", .vstr "alpha")],
        none,
        [.phaseStarted metaA, .runInvoked "A", .phaseCompleted metaA none,
         .phaseStarted metaB, .runInvoked "B", .handlerCalled "B" "token",
         .runInvoked "B", .phaseCompleted metaB none,
         .phaseStarted metaC, .runInvoked "C", .phaseCompleted metaC none]) ∧
    observerEvents
      [.phaseStarted metaA, .runInvoked "A", .phaseCompleted metaA none,
       .phaseStarted metaB, .runInvoked "B", .handlerCalled "B" "token",
       .runInvoked "B", .phaseCompleted metaB none,
       .phaseStarted metaC, .runInvoked "C", .phaseCompleted metaC none] =
      [.phaseStarted metaA, .phaseCompleted metaA none,
       .phaseStarted metaB, .phaseCompleted metaB none,
       .phaseStarted metaC, .phaseCompleted metaC none] ∧
    ([.phaseStarted metaA, .phaseCompleted metaA none,
      .phaseStarted metaB, .phaseCompleted metaB none,
      .phaseStarted metaC, .phaseCompleted metaC none] : List Event) ≠
      [.phaseStarted metaA, .phaseCompleted metaA none,
       .phaseStarted metaB, .phaseCompleted metaB (some errB),
       .phaseStarted metaB, .phaseCompleted metaB none,
       .phaseStarted metaC, .phaseCompleted metaC none] :=
  ⟨rfl, rfl, by decide⟩

/-- C3 (amended): the end-to-end scenario yields the observer sequence
[start A, complete A, start B, complete B, start C, complete C] — the
input retry is internal to B's execution and produces no observer
events — the final store maps B's token input key to the supplied
value, and `Run` returns no error. -/
theorem c3_end_to_end_amended :
    Manager.Run mgr3 4 (some []) =
      some (some [("artifact:b", .vstr "beta"), ("phase:B:input:token", .vstr "abc123"),
          ("artifact:a", .vstr "alpha")],
        none,
        [.phaseStarted metaA, .runInvoked "A", .phaseCompleted metaA none,
         .phaseStarted metaB, .runInvoked "B", .handlerCalled "B" "token",
         .runInvoked "B", .phaseCompleted metaB none,
         .phaseStarted metaC, .runInvoked "C", .phaseCompleted metaC none]) ∧
    observerEvents
      [.phaseStarted metaA, .runInvoked "A", .phaseCompleted metaA none,
       .phaseStarted metaB, .runInvoked "B", .handlerCalled "B" "token",
       .runInvoked "B", .phaseCompleted metaB none,
       .phaseStarted metaC, .runInvoked "C", .phaseCompleted metaC none] =
      [.phaseStarted metaA, .phaseCompleted metaA none,
       .phaseStarted metaB, .phaseCompleted metaB none,
       .phaseStarted metaC, .phaseCompleted metaC none] ∧
    Ctx.Get
      (some [("artifact:b", .vstr "beta"), ("phase:B:input:token", .vstr "abc123"),
        ("artifact:a", .vstr "alpha")]) keyBtoken = some (.vstr "abc123") :=
  ⟨rfl, rfl, rfl⟩

/-- C5 counterexample: the engine stores operator-submitted values under
`phase:<stepID>:input:<inputID>`, not `step:<stepID>:input:<inputID>`:
after the one-step retry scenario the store has no binding for
`step:B:input:token`, while `phase:B:input:token` holds the value. -/
theorem c5_input_key_counterexample :
    Manager.Run mgr1 2 (some []) =
      some (some [("artifact:b", .vstr "beta"), ("phase:B:input:token", .vstr "abc123")],
        none,
        [.phaseStarted metaB, .runInvoked "B", .handlerCalled "B" "token",
         .runInvoked "B", .phaseCompleted metaB none]) ∧
    Ctx.Get (some [("artifact:b", .vstr "beta"), ("phase:B:input:token", .vstr "abc123")])
      "step:B:input:token" = none ∧
    Ctx.Get (some [("artifact:b", .vstr "beta"), ("phase:B:input:token", .vstr "abc123")])
      "phase:B:input:token" = some (.vstr "abc123") :=
  ⟨rfl, rfl, rfl⟩

/-- C5 (amended): every operator-submitted value is stored by the engine,
and read back by steps, under the store key
`phase:<stepID>:input:<inputID>` built from the requesting step's ID and
the unmet input's ID. -/
theorem c5_input_key_amended :
    ∀ (pid iid : String) (v : GoValue) (s : Store),
      inputKey pid iid = "phase:" ++ pid ++ ":input:" ++ iid ∧
      GetInput (SetInput (some s) pid iid v) pid iid = some v := by
  intro pid iid v s
  refine ⟨rfl, ?_⟩
  simp [GetInput, SetInput, Ctx.Get, Ctx.Set, List.lookup]

/-- C6: when a step fails with an `InputRequestError` and no input
handler is configured, `Run` fails immediately with that error wrapped
in a `PhaseExecutionError` identifying the step, and the step's run
operation is invoked exactly once (the trace holds a single
`runInvoked`). -/
theorem c6_no_handler_fail_fast (p : Phase) (ctx1 : Ctx) (pid : String)
    (idef : InputDefinition) (reason : String) (fuel : Nat)
    (hfuel : 1 ≤ fuel)
    (hrun : p.run (some []) = (ctx1, some (.inputRequest pid idef reason))) :
    Manager.Run { phases := [p], inputHandler := none } fuel (some []) =
      some (ctx1, some (.phaseExecution p.metadata (.inputRequest pid idef reason)),
        [.phaseStarted p.metadata, .runInvoked p.metadata.ID,
         .phaseCompleted p.metadata (some (.inputRequest pid idef reason))]) := by
  obtain ⟨n, rfl⟩ : ∃ n, fuel = Nat.succ n := ⟨fuel - 1, by omega⟩
  simp [Manager.Run, runPhases, executePhase, hrun, asInputRequest]

/-- C6 witness: the scenario's phase B with no handler, fuel 1. -/
theorem c6_no_handler_fail_fast_witness :
    Manager.Run { phases := [phaseB], inputHandler := none } 1 (some []) =
      some (some [], some (.phaseExecution metaB errB),
        [.phaseStarted metaB, .runInvoked "B", .phaseCompleted metaB (some errB)]) :=
  c6_no_handler_fail_fast phaseB (some []) "B" tokenDef "token required" 1
    (by decide) rfl

/-- C7 counterexample: a `Register` call whose second phase duplicates
its first returns a duplicate-ID error, yet the registered list has
grown from 0 to 1 entries — the phases preceding the offending one
remain appended. -/
theorem c7_register_counterexample :
    (Manager.Register { phases := [], inputHandler := none }
        [some (mkSimplePhase "A"), some (mkSimplePhase "A")]).2 =
      some (.duplicatePhase "A") ∧
    (Manager.Register { phases := [], inputHandler := none }
        [some (mkSimplePhase "A"), some (mkSimplePhase "A")]).1.phases.length = 1 ∧
    (1 : Nat) ≠ 0 :=
  ⟨rfl, rfl, by decide⟩

/-- C7 (amended): `Register` rejects a phase whose ID is already
registered with a duplicate-ID error; phases earlier in the same call
remain appended, so the registered list is unchanged exactly when the
offending phase is the first one processed — in particular a
single-phase `Register` call with a duplicate ID leaves the manager
unchanged. -/
theorem c7_register_duplicate_amended (m : Manager) (p : Phase)
    (hne : p.metadata.ID ≠ "")
    (hdup : hasPhase m.phases p.metadata.ID = true) :
    Manager.Register m [some p] = (m, some (.duplicatePhase p.metadata.ID)) := by
  simp [Manager.Register, registerLoop, hne, hdup]

/-- C7 witness: re-registering the single already-registered ID "A". -/
theorem c7_register_duplicate_amended_witness :
    Manager.Register { phases := [mkSimplePhase "A"], inputHandler := none }
        [some (mkSimplePhase "A")] =
      ({ phases := [mkSimplePhase "A"], inputHandler := none },
        some (.duplicatePhase "A")) :=
  c7_register_duplicate_amended
    { phases := [mkSimplePhase "A"], inputHandler := none }
    (mkSimplePhase "A") (by decide) rfl

/-- C8: `RunFrom` with start index 2 on the 4-step pipeline invokes
exactly the steps at indices 2 and 3, in that order, and no others; the
start index is clamped to the valid range (negatives to 0, too-large
indices to the last index). -/
theorem c8_runFrom_start_index :
    Manager.RunFrom mgr4 1 (some []) 2 =
      some (some [], none,
        [.phaseStarted { ID := "P2", Title := "P2" }, .runInvoked "P2",
         .phaseCompleted { ID := "P2", Title := "P2" } none,
         .phaseStarted { ID := "P3", Title := "P3" }, .runInvoked "P3",
         .phaseCompleted { ID := "P3", Title := "P3" } none]) ∧
    clampStartIndex 4 2 = 2 ∧ clampStartIndex 4 (-3) = 0 ∧
    clampStartIndex 4 9 = 3 ∧ clampStartIndex 0 5 = 0 :=
  ⟨rfl, rfl, rfl, rfl, rfl⟩

/-- C10: all public store and engine entry points tolerate a nil store:
`Set` on a nil store is a no-op, `Get` on a nil store reports the key
absent, the input helpers do likewise (all total functions — no
panics), and `Run` on a nil store behaves exactly as on a freshly
allocated empty store. -/
theorem c10_nil_store_tolerance :
    ∀ (k : String) (v : GoValue) (pid iid : String) (m : Manager) (fuel : Nat),
      Ctx.Set none k v = none ∧
      Ctx.Get none k = none ∧
      SetInput none pid iid v = none ∧
      GetInput none pid iid = none ∧
      Manager.Run m fuel none = Manager.Run m fuel NewContext :=
  fun _ _ _ _ _ _ => ⟨rfl, rfl, rfl, rfl, rfl⟩

/-- C2 counterexample: on a host whose sudo probe fails with the
permission-denied signature and where every later command succeeds —
so a sudo re-probe, were one issued, would succeed (fourth conjunct) —
the resolver issues exactly three commands, of which only the initial
probe is a sudo invocation (no re-probe), and resolves Fallback (`su`),
not Primary. -/
theorem c2_perm_reprobe_counterexample :
    (ensureElevation permThenOk [] "pw").1 = .ok .su ∧
    (ensureElevation permThenOk [] "pw").2.length = 3 ∧
    ((ensureElevation permThenOk [] "pw").2.filter
      (fun call => isSudoCmd call.1)).length = 1 ∧
    (permThenOk 3 sudoProbeCommand "pw\n").ok = true ∧
    (ensureElevation permThenOk [] "pw").1 ≠ Except.ok ElevationMethod.sudo := by
  refine ⟨rfl, rfl, rfl, rfl, ?_⟩
  intro h
  rw [show (ensureElevation permThenOk [] "pw").1 = Except.ok ElevationMethod.su
    from rfl] at h
  exact ElevationMethod.noConfusion (Except.ok.inj h)

/-- C2 (amended): when the Primary (sudo) probe fails with the
permission-denied signature and the Fallback (su) probe then succeeds,
the resolver installs the Primary tool via Fallback and resolves
Method = Fallback without re-probing Primary — the final call log is
exactly the one the install step left, with no further probe; the
re-probe-and-upgrade step exists only in the tool-not-found branch. -/
theorem c2_perm_branch_amended (b : Behav) (st : CallLog) (pw e : String)
    (st1 st2 st3 : CallLog)
    (h1 : validateSudo b st pw = (some (.sudoPermission e), st1))
    (h2 : ensureRootViaSu b st1 pw = (none, st2))
    (h3 : ensureSudoInstalled b st2 .su pw = (none, st3)) :
    ensureElevation b st pw = (.ok .su, st3) := by
  simp [ensureElevation, h1, h2, h3]

/-- C2 witness: the permission-denied branch on the concrete host. -/
theorem c2_perm_branch_amended_witness :
    ensureElevation permThenOk [] "pw" =
      (.ok .su,
        [(sudoProbeCommand, "pw" ++ "\n"), (suProbeCommand, "pw" ++ "\n"),
         ("su - root -c " ++ shellQuote ("printf %s " ++
             shellQuote (base64Encode ensureSudoScript) ++ " | base64 -d | bash"),
           "pw" ++ "\n")]) :=
  c2_perm_branch_amended permThenOk [] "pw"
    "user is not in the sudoers file.  This incident will be reported."
    [(sudoProbeCommand, "pw" ++ "\n")]
    [(sudoProbeCommand, "pw" ++ "\n"), (suProbeCommand, "pw" ++ "\n")]
    [(sudoProbeCommand, "pw" ++ "\n"), (suProbeCommand, "pw" ++ "\n"),
     ("su - root -c " ++ shellQuote ("printf %s " ++
         shellQuote (base64Encode ensureSudoScript) ++ " | base64 -d | bash"),
       "pw" ++ "\n")]
    rfl rfl rfl

/-- C4: if the Primary (sudo) probe fails and its stderr carries an
authentication-failure signature (and none of the earlier-matched
not-installed or permission signatures), resolution returns the
authentication error immediately, the call log gains exactly the one
sudo probe command — so the Fallback (su) mechanism is never probed —
and that probe command is not a `su` invocation. -/
theorem c4_auth_short_circuit (b : Behav) (st : CallLog) (pw : String)
    (hfail : (b st.length sudoProbeCommand (pw ++ "\n")).ok = false)
    (hnotmissing : containsSubstr (b st.length sudoProbeCommand (pw ++ "\n")).stderr
      "sudo: command not found" = false)
    (hnotperm1 : containsSubstr (b st.length sudoProbeCommand (pw ++ "\n")).stderr
      "is not in the sudoers file" = false)
    (hnotperm2 : containsSubstr (b st.length sudoProbeCommand (pw ++ "\n")).stderr
      "may not run sudo" = false)
    (hauth : isAuthenticationFailure (b st.length sudoProbeCommand (pw ++ "\n")).stderr = true ∨
      containsSubstr (b st.length sudoProbeCommand (pw ++ "\n")).stderr
        "Sorry, try again." = true) :
    ensureElevation b st pw =
      (.error .sudoAuthentication, st ++ [(sudoProbeCommand, pw ++ "\n")]) ∧
    isSuCmd sudoProbeCommand = false := by
  have hv : validateSudo b st pw =
      (some .sudoAuthentication, st ++ [(sudoProbeCommand, pw ++ "\n")]) := by
    rcases hauth with h | h <;>
      simp only [sudoProbeCommand] at hfail hnotmissing hnotperm1 hnotperm2 h <;>
      simp [validateSudo, runPrivileged, runCall, sudoProbeCommand, hfail,
        hnotmissing, hnotperm1, hnotperm2, h]
  refine ⟨?_, rfl⟩
  simp [ensureElevation, hv]

/-- C4 witness: the authentication-failing host issues exactly the one
sudo probe. -/
theorem c4_auth_short_circuit_witness :
    ensureElevation authFailBehav [] "pw" =
      (.error .sudoAuthentication, [] ++ [(sudoProbeCommand, "pw" ++ "\n")]) ∧
    isSuCmd sudoProbeCommand = false :=
  c4_auth_short_circuit authFailBehav [] "pw" rfl rfl rfl rfl (Or.inl rfl)

end HostPrep
